import Mathlib

/-!
# Event schema registry: shallow embedding and verification

This file embeds the event schema registry of the e-commerce data platform
(`src/events/taxonomy.py`, `src/events/base.py`, `src/events/registry.py`,
`src/events/schemas/`) and proves properties of it.

Modelling conventions:
* Python `dict` (insertion ordered) is modelled as an association list
  `List (String × β)`; assignment `d[k] = v` is `aupsert` (replace in place,
  append when the key is new); `k in d` / `d.get(k)` is `alookup`.
* Python exceptions are modelled with explicit error values.  A raising
  mutation returns the object state at the moment of the raise (Python
  leaves partial mutations in place when an exception propagates).
* Pydantic schema classes are opaque: a schema is identified by a `Nat`.
* `datetime.now` is an explicit `now : Nat` argument.
-/

namespace EventPlatform

/-! ## Taxonomy (`src/events/taxonomy.py`) -/

/-- The `EventCategory` enum: high-level event categories. -/
inductive EventCategory where
  | order
  | customer
  | product
  | payment
  | inventory
  | cart
  | review
deriving DecidableEq

/-- The string value of each `EventCategory` member. -/
def EventCategory.value : EventCategory → String
  | .order => "order"
  | .customer => "customer"
  | .product => "product"
  | .payment => "payment"
  | .inventory => "inventory"
  | .cart => "cart"
  | .review => "review"

/-- The `EventCategory(prefix)` enum constructor call: returns the member
whose value equals the string, else fails (`ValueError`, modelled `none`). -/
def categoryFromString (s : String) : Option EventCategory :=
  if s = "order" then some .order
  else if s = "customer" then some .customer
  else if s = "product" then some .product
  else if s = "payment" then some .payment
  else if s = "inventory" then some .inventory
  else if s = "cart" then some .cart
  else if s = "review" then some .review
  else none

/-- The enumerated event values of each category
(`OrderEvents`, `CustomerEvents`, ... member values, in source order). -/
def eventValues : EventCategory → List String
  | .order =>
    ["order.created", "order.updated", "order.cancelled", "order.confirmed",
     "order.processing", "order.shipped", "order.delivered", "order.refunded",
     "order.item_added", "order.item_removed", "order.item_updated"]
  | .customer =>
    ["customer.registered", "customer.updated", "customer.activated",
     "customer.deactivated", "customer.suspended", "customer.deleted",
     "customer.email_verified", "customer.credentials_updated",
     "customer.address_added", "customer.address_updated",
     "customer.address_removed"]
  | .product =>
    ["product.created", "product.updated", "product.activated",
     "product.deactivated", "product.price_changed", "product.stock_updated",
     "product.category_changed", "product.image_added", "product.image_removed"]
  | .payment =>
    ["payment.initiated", "payment.processing", "payment.completed",
     "payment.failed", "payment.cancelled", "payment.refund_initiated",
     "payment.refund_completed", "payment.refund_failed",
     "payment.method_added", "payment.method_removed", "payment.method_updated"]
  | .inventory =>
    ["inventory.stock_received", "inventory.stock_reserved",
     "inventory.stock_released", "inventory.stock_adjusted",
     "inventory.low_stock_alert", "inventory.out_of_stock",
     "inventory.back_in_stock", "inventory.location_transfer"]
  | .cart =>
    ["cart.created", "cart.item_added", "cart.item_removed",
     "cart.item_updated", "cart.cleared", "cart.abandoned",
     "cart.converted", "cart.merged"]
  | .review =>
    ["review.submitted", "review.approved", "review.rejected",
     "review.updated", "review.deleted", "review.flagged"]

/-- Helper for `str.split(".")`: walk the characters accumulating the
current segment (reversed); a dot closes the segment. -/
def splitChars : List Char → List Char → List (List Char)
  | acc, [] => [acc.reverse]
  | acc, c :: cs =>
    if c = '.' then acc.reverse :: splitChars [] cs
    else splitChars (c :: acc) cs

/-- Python `version.split(".")` (note `"".split(".") == [""]`). -/
def splitOnDot (s : String) : List String :=
  (splitChars [] s.data).map (fun cs => String.mk cs)

/-- `get_event_category(event_type)`:
`prefix = event_type.split(".")[0]; EventCategory(prefix)` with the
`ValueError` caught and turned into `None`. -/
def get_event_category (event_type : String) : Option EventCategory :=
  categoryFromString ((splitOnDot event_type).headD "")

/-- `validate_event_type(event_type)`: classify, then check exact membership
of the full string in the enumerated value set of the category.
In the source, `ALL_EVENTS.get(category)` is always present (the dict is
total over the enum), and `if not category` tests the `None` case (all
member values are non-empty strings, so no member is falsy). -/
def validate_event_type (event_type : String) : Bool :=
  match get_event_category event_type with
  | none => false
  | some c => (eventValues c).any (fun v => v == event_type)

/-! ## Version parsing and comparison (`registry.py` lines 201-225) -/

/-- A non-empty all-digit character list read as a decimal `Nat`. -/
def decDigits? (cs : List Char) : Option Nat :=
  if cs = [] then none
  else if cs.all (fun c => c.isDigit) then
    some (cs.foldl (fun n c => n * 10 + (c.toNat - 48)) 0)
  else
    none

/-- Python `int(part)` on a version segment: an optional leading minus sign
followed by one or more digits; anything else raises (modelled `none`). -/
def parseIntSeg (s : String) : Option Int :=
  match s.data with
  | '-' :: rest => (decDigits? rest).map (fun n => -(n : Int))
  | cs => (decDigits? cs).map (fun n => (n : Int))

/-- `_parse_version(version)`: `tuple(int(part) for part in version.split("."))`;
`none` when some segment does not parse (the `ValueError` of `int`). -/
def parse_version (version : String) : Option (List Int) :=
  (splitOnDot version).mapM parseIntSeg

/-- The loop of `_compare_versions` on the already-parsed tuples: walk the
zipped prefixes (`zip` with `strict=False` stops at the shorter side) and on
exhaustion return `len(parts1) - len(parts2)`; the elements consumed so far
are equal, so the difference of the remaining lengths is that value. -/
def compareParts : List Int → List Int → Int
  | [], parts2 => -(parts2.length : Int)
  | parts1, [] => (parts1.length : Int)
  | p1 :: rest1, p2 :: rest2 =>
    if p1 < p2 then -1
    else if p2 < p1 then 1
    else compareParts rest1 rest2

/-- `_compare_versions(v1, v2)`: parse both and compare; a segment that
does not parse raises (`none`). -/
def compare_versions (v1 v2 : String) : Option Int := do
  let parts1 ← parse_version v1
  let parts2 ← parse_version v2
  return compareParts parts1 parts2

/-- Python tuple `<` on the parsed tuples (lexicographic, a strict prefix is
smaller).  `sorted(..., key=_parse_version)` orders by this relation. -/
def tupleLt : List Int → List Int → Bool
  | [], [] => false
  | [], _ :: _ => true
  | _ :: _, [] => false
  | a :: as, b :: bs => if a < b then true else if b < a then false else tupleLt as bs

/-! ## Data model (`src/events/base.py`) -/

/-- `SchemaVersion`: schema version metadata.  `schema_class` is the opaque
schema identifier; `created_at` the registration instant. -/
structure SchemaVersion where
  version : String
  schema_class : Nat
  created_at : Nat
  deprecated : Bool
  compatible_with : List String
  migration_notes : Option String
deriving DecidableEq

/-- The registry state of `InMemoryEventRegistry`:
`_schemas : {event_type: {version: SchemaVersion}}` and
`_latest_versions : {event_type: version}`, both insertion-ordered dicts. -/
structure Registry where
  schemas : List (String × List (String × SchemaVersion))
  latest_versions : List (String × String)
deriving DecidableEq

/-- A fresh `InMemoryEventRegistry()`. -/
def emptyRegistry : Registry := ⟨[], []⟩

/-- The distinct exception kinds raised by registry mutation and queries. -/
inductive RegError where
  | invalidEventType
  | duplicateSchema
  | versionParse
deriving DecidableEq

deriving instance DecidableEq for Except

/-- Result of a mutating call: `ok` with the new state, or `err` carrying the
exception kind together with the object state at the moment of the raise. -/
inductive RegResult where
  | ok (r : Registry)
  | err (e : RegError) (r : Registry)
deriving DecidableEq

/-! ## Association list helpers (Python dict operations) -/

/-- `d.get(k)` / `d[k]` on an insertion-ordered dict. -/
def alookup {β : Type} (k : String) : List (String × β) → Option β
  | [] => none
  | (k', v) :: rest => if k' = k then some v else alookup k rest

/-- `d[k] = v`: replace the value in place when the key exists, else append. -/
def aupsert {β : Type} (k : String) (v : β) : List (String × β) → List (String × β)
  | [] => [(k, v)]
  | (k', v') :: rest =>
    if k' = k then (k', v) :: rest else (k', v') :: aupsert k v rest

/-- `self._schemas[event_type][version] = sv` (the outer dict is a
`defaultdict(dict)`, so a missing outer key gets a fresh inner dict). -/
def upsertSchema (t v : String) (sv : SchemaVersion)
    (schemas : List (String × List (String × SchemaVersion))) :
    List (String × List (String × SchemaVersion)) :=
  match alookup t schemas with
  | none => schemas ++ [(t, [(v, sv)])]
  | some vs => aupsert t (aupsert v sv vs) schemas

/-! ## Registry operations (`src/events/registry.py`) -/

/-- `register_schema(event_type, schema, version)`.  Checks run in source
order: taxonomy validity, then the duplicate check, then the insert, then
the latest-pointer update (which parses versions and can itself raise after
the insert has already happened). -/
def register_schema (r : Registry) (event_type : String) (schema : Nat)
    (version : String) (now : Nat) : RegResult :=
  if !validate_event_type event_type then
    .err .invalidEventType r
  else if ((alookup event_type r.schemas).elim false
      (fun vs => (alookup version vs).isSome) : Bool) then
    .err .duplicateSchema r
  else
    let sv : SchemaVersion :=
      ⟨version, schema, now, false, [], none⟩
    let r' : Registry := { r with schemas := upsertSchema event_type version sv r.schemas }
    match alookup event_type r.latest_versions with
    | none =>
      .ok { r' with latest_versions := aupsert event_type version r'.latest_versions }
    | some cur =>
      match compare_versions version cur with
      | none => .err .versionParse r'
      | some c =>
        if 0 < c then
          .ok { r' with latest_versions := aupsert event_type version r'.latest_versions }
        else
          .ok r'

/-- `get_schema(event_type, version=None)`: `None` when the type is unknown,
when no latest is recorded (version omitted), or when the requested version
is absent; otherwise the stored `schema_class`. -/
def get_schema (r : Registry) (event_type : String) (version : Option String) :
    Option Nat :=
  match alookup event_type r.schemas with
  | none => none
  | some vs =>
    let v : Option String :=
      match version with
      | some v => some v
      | none => alookup event_type r.latest_versions
    match v with
    | none => none
    | some ver => (alookup ver vs).map (fun sv => sv.schema_class)

/-- The ordering `sorted(keys, key=self._parse_version)` sorts by: `a` comes
no later than `b` when the parsed key of `b` is not tuple-less-than that of
`a`. -/
def versionKeyLe (a b : String) : Prop :=
  tupleLt ((parse_version b).getD []) ((parse_version a).getD []) = false

instance : DecidableRel versionKeyLe := fun a b => by
  unfold versionKeyLe
  infer_instance

/-- `sorted(keys, key=self._parse_version)`: computes the parse key of every
element (raising on the first malformed one) and stably sorts by Python
tuple `<` on the keys (`List.insertionSort` is stable, as Python sort is). -/
def sortVersionKeys (keys : List String) : Except RegError (List String) :=
  if keys.all (fun v => (parse_version v).isSome) then
    .ok (keys.insertionSort versionKeyLe)
  else
    .error .versionParse

/-- `list_versions(event_type)`: `[]` for an unknown type, else the keys of
the inner dict sorted by the parsed version. -/
def list_versions (r : Registry) (event_type : String) :
    Except RegError (List String) :=
  match alookup event_type r.schemas with
  | none => .ok []
  | some vs => sortVersionKeys (vs.map (fun p => p.1))

/-- `get_schema_evolution_path(event_type, from_version, to_version)`:
sort the registered versions, find both endpoints (`list.index`, the
`ValueError` of a missing endpoint caught and turned into `[]`), return `[]`
for a reversed pair, else the inclusive slice. -/
def get_schema_evolution_path (r : Registry) (event_type from_version to_version : String) :
    Except RegError (List String) :=
  match alookup event_type r.schemas with
  | none => .ok []
  | some vs => do
    let versions ← sortVersionKeys (vs.map (fun p => p.1))
    match versions.findIdx? (fun v => v == from_version),
        versions.findIdx? (fun v => v == to_version) with
    | some start_idx, some end_idx =>
      if end_idx < start_idx then
        .ok []
      else
        .ok ((versions.drop start_idx).take (end_idx - start_idx + 1))
    | _, _ => .ok []

/-- `list_event_types()`: the keys of `_schemas` in insertion order. -/
def list_event_types (r : Registry) : List String :=
  r.schemas.map (fun p => p.1)

/-- `mark_deprecated(event_type, version, migration_notes=None)`: a no-op
when the pair is absent; otherwise sets `deprecated = True` and, when the
notes argument is truthy (present and non-empty), stores it. -/
def mark_deprecated (r : Registry) (event_type version : String)
    (migration_notes : Option String) : Registry :=
  match alookup event_type r.schemas with
  | none => r
  | some vs =>
    match alookup version vs with
    | none => r
    | some sv =>
      let sv' : SchemaVersion :=
        { sv with
          deprecated := true
          migration_notes :=
            match migration_notes with
            | some s => if s = "" then sv.migration_notes else some s
            | none => sv.migration_notes }
      { r with schemas := aupsert event_type (aupsert version sv' vs) r.schemas }

/-! ## Event validation (`registry.py` `validate_event`, `base.py` `EventMetadata`) -/

/-- The contents of a raw `metadata` mapping, restricted to what the
registry logic inspects.  `others_ok` abstracts the pydantic validation of
the remaining fields (`event_id` a valid UUID, optional fields well-typed):
that validation happens in the external pydantic library, outside this
repository. -/
structure MetaDict where
  event_type : Option String
  event_version : Option String
  others_ok : Bool
deriving DecidableEq

/-- A top-level entry of the raw event dict: missing, present but not a
mapping, or a mapping with contents `α`. -/
inductive RawField (α : Type) where
  | absent
  | notMapping
  | mapping (m : α)
deriving DecidableEq

/-- A raw event as fed to `validate_event`: the two top-level entries the
code reads.  The raw `data` mapping contents are opaque (`Nat`). -/
structure RawEvent where
  metadata : RawField MetaDict
  data : RawField Nat
deriving DecidableEq

/-- The fields of a parsed `EventMetadata` that the registry logic uses. -/
structure EventMetadataM where
  event_type : String
  event_version : String
deriving DecidableEq

/-- `EventMetadata(**metadata_raw)`: `event_type` is required, `event_version`
defaults to `EVENT_VERSION = "1.0"`, the rest must validate (`others_ok`);
a failure is pydantic `ValidationError` (modelled `none`). -/
def parseEventMetadata (m : MetaDict) : Option EventMetadataM :=
  match m.event_type with
  | none => none
  | some t =>
    if m.others_ok then
      some ⟨t, m.event_version.getD "1.0"⟩
    else
      none

/-- The distinct exception kinds `validate_event` raises: `TypeError` for a
missing or non-mapping top-level entry, pydantic `ValidationError`, and the
`ValueError` for an unresolvable schema. -/
inductive ValidateError where
  | malformedEvent
  | validationFailed
  | schemaNotFound
deriving DecidableEq

/-- The returned `BaseEvent(metadata=..., data=...)`. -/
structure ValidatedEvent where
  metadata : EventMetadataM
  data : Nat
deriving DecidableEq

/-- `validate_event(event)`, in source order: the `metadata` mapping check,
metadata parsing, schema resolution, the `data` mapping check, payload
validation.  `accepts sid d` abstracts `schema(**data_raw)` succeeding for
schema class `sid` on payload `d` (pydantic, external). -/
def validate_event (r : Registry) (accepts : Nat → Nat → Bool) (event : RawEvent) :
    Except ValidateError ValidatedEvent :=
  match event.metadata with
  | .absent => .error .malformedEvent
  | .notMapping => .error .malformedEvent
  | .mapping m =>
    match parseEventMetadata m with
    | none => .error .validationFailed
    | some md =>
      match get_schema r md.event_type (some md.event_version) with
      | none => .error .schemaNotFound
      | some sid =>
        match event.data with
        | .absent => .error .malformedEvent
        | .notMapping => .error .malformedEvent
        | .mapping d =>
          if accepts sid d then .ok ⟨md, d⟩ else .error .validationFailed

/-! ## Module-level registry state and bootstrap
(`registry.py` lines 228-258, `schemas/__init__.py`, `schemas/*.py`) -/

/-- `_RegistryState`: the module-level singleton container. -/
structure GlobalState where
  registry : Option Registry
  schemas_registered : Bool
deriving DecidableEq

/-- The state at module import: no registry constructed, flag unset. -/
def initialState : GlobalState := ⟨none, false⟩

/-- `get_registry()`: lazily construct the default in-memory registry. -/
def get_registry (g : GlobalState) : GlobalState × Registry :=
  match g.registry with
  | some r => (g, r)
  | none => (⟨some emptyRegistry, g.schemas_registered⟩, emptyRegistry)

/-- `set_registry(registry)`. -/
def set_registry (g : GlobalState) (r : Registry) : GlobalState :=
  { g with registry := some r }

/-- One `register_schema` call of the bootstrap: event type and schema
identifier (all bootstrap calls use the default `version="1.0"`). -/
def builtinSchemas : List (String × Nat) :=
  [("order.created", 0), ("order.updated", 1), ("order.cancelled", 2),
   ("order.shipped", 3), ("order.delivered", 4),
   ("customer.registered", 5), ("customer.updated", 6),
   ("customer.deactivated", 7), ("customer.address_added", 8),
   ("customer.email_verified", 9), ("customer.credentials_updated", 10),
   ("payment.initiated", 11), ("payment.completed", 12), ("payment.failed", 13),
   ("payment.refund_initiated", 14), ("payment.refund_completed", 15),
   ("payment.method_added", 16),
   ("inventory.stock_received", 17), ("inventory.stock_reserved", 18),
   ("inventory.stock_released", 19), ("inventory.stock_adjusted", 20),
   ("inventory.low_stock_alert", 21), ("inventory.out_of_stock", 22)]

/-- Run a sequence of `register_schema` calls
`(event_type, schema, version, now)` left to right; on an exception the
partially mutated state is kept and the error recorded, as in Python. -/
def runRegisters : Registry → List (String × Nat × String × Nat) →
    Registry × Option RegError
  | r, [] => (r, none)
  | r, (t, s, v, n) :: rest =>
    match register_schema r t s v n with
    | .ok r' => runRegisters r' rest
    | .err e r' => (r', some e)

/-- `register_all_schemas()`: `register_order_schemas(); register_customer_schemas();
register_payment_schemas(); register_inventory_schemas()` — each fetches the
global registry and registers its schemas with the default version. -/
def register_all_schemas (g : GlobalState) : GlobalState × Option RegError :=
  let (g1, r) := get_registry g
  let (r', e) := runRegisters r (builtinSchemas.map (fun p => (p.1, p.2, "1.0", 0)))
  ({ g1 with registry := some r' }, e)

/-- `ensure_schemas_registered()`: guarded by `_state.schemas_registered`;
the flag is set only after `register_all_schemas()` returns (an exception
propagates with the flag still unset). -/
def ensure_schemas_registered (g : GlobalState) : GlobalState × Option RegError :=
  if g.schemas_registered then
    (g, none)
  else
    match register_all_schemas g with
    | (g', none) => ({ g' with schemas_registered := true }, none)
    | (g', some e) => (g', some e)

/-! ## The latest-pointer invariant -/

/-- `v` is, under the source comparator, maximal among the (parseable)
registered versions `vs` of one event type. -/
def latestMaximal (vs : List (String × SchemaVersion)) (v : String) : Prop :=
  ∀ w ∈ vs.map Prod.fst, ∀ pw pv, parse_version w = some pw →
    parse_version v = some pv → compareParts pw pv ≤ 0

/-- Invariant relating `_schemas` and `_latest_versions`: every registered
type has a recorded latest version which is itself registered and maximal
under the comparator, and the latest index has no stale entries. -/
def LatestInv (r : Registry) : Prop :=
  (∀ t vs, alookup t r.schemas = some vs →
    ∃ v sv, alookup t r.latest_versions = some v ∧ alookup v vs = some sv ∧
      latestMaximal vs v) ∧
  (∀ t v, alookup t r.latest_versions = some v → alookup t r.schemas ≠ none)


/-! ## Sample data used in concrete scenarios -/

/-- The registration calls of the out-of-numeric-order scenario:
versions "1.2", then "1.1", then "1.10" of `order.created`. -/
def sampleCallsNumeric : List (String × Nat × String × Nat) :=
  [("order.created", 1, "1.2", 0), ("order.created", 2, "1.1", 1),
   ("order.created", 3, "1.10", 2)]

/-- The registry after the out-of-numeric-order registrations. -/
def sampleRegNumeric : Registry := (runRegisters emptyRegistry sampleCallsNumeric).1

/-- The inner version map of `order.created` in `sampleRegNumeric`. -/
def sampleVersionsNumeric : List (String × SchemaVersion) :=
  [("1.2", ⟨"1.2", 1, 0, false, [], none⟩),
   ("1.1", ⟨"1.1", 2, 1, false, [], none⟩),
   ("1.10", ⟨"1.10", 3, 2, false, [], none⟩)]

/-- The registration calls of the evolution-path scenario:
versions "1.0", "1.1", "1.2" of `order.created`. -/
def sampleCallsEvo : List (String × Nat × String × Nat) :=
  [("order.created", 1, "1.0", 0), ("order.created", 2, "1.1", 1),
   ("order.created", 3, "1.2", 2)]

/-- The registry with versions "1.0", "1.1", "1.2" of `order.created`. -/
def sampleRegEvo : Registry := (runRegisters emptyRegistry sampleCallsEvo).1

/-- The inner version map of `order.created` in `sampleRegEvo`. -/
def sampleVersionsEvo : List (String × SchemaVersion) :=
  [("1.0", ⟨"1.0", 1, 0, false, [], none⟩),
   ("1.1", ⟨"1.1", 2, 1, false, [], none⟩),
   ("1.2", ⟨"1.2", 3, 2, false, [], none⟩)]

/-- A registry whose only registered version of `order.created` is the
unparseable string "abc" (such a registration succeeds: no latest was
recorded, so no comparison runs). -/
def sampleRegAbc : Registry :=
  (runRegisters emptyRegistry [("order.created", 7, "abc", 0)]).1

/-- Registry with `order.created` v"1.0" (schema 1) registered. -/
def sampleRegOne : Registry :=
  (runRegisters emptyRegistry [("order.created", 1, "1.0", 0)]).1

/-- `sampleRegOne` with `order.created` v"1.1" (schema 2) registered on top. -/
def sampleRegTwo : Registry :=
  (runRegisters emptyRegistry
    [("order.created", 1, "1.0", 0), ("order.created", 2, "1.1", 1)]).1

/-- A raw event with a well-formed metadata mapping but no `data` entry. -/
def rawEventMissingData : RawEvent :=
  ⟨RawField.mapping ⟨some "order.created", some "1.0", true⟩, RawField.absent⟩

/-! ## Association list lemmas -/

@[simp]
theorem alookup_nil {β : Type} (k : String) : alookup k ([] : List (String × β)) = none := rfl

theorem alookup_cons {β : Type} (k k' : String) (v : β) (l : List (String × β)) :
    alookup k ((k', v) :: l) = if k' = k then some v else alookup k l := rfl

@[simp]
theorem aupsert_nil {β : Type} (k : String) (v : β) :
    aupsert k v ([] : List (String × β)) = [(k, v)] := rfl

theorem aupsert_cons_eq {β : Type} {k₀ k : String} (h : k₀ = k) (v : β) (v₀ : β)
    (rest : List (String × β)) :
    aupsert k v ((k₀, v₀) :: rest) = (k₀, v) :: rest := by
  simp [aupsert, h]

theorem aupsert_cons_ne {β : Type} {k₀ k : String} (h : ¬k₀ = k) (v : β) (v₀ : β)
    (rest : List (String × β)) :
    aupsert k v ((k₀, v₀) :: rest) = (k₀, v₀) :: aupsert k v rest := by
  simp [aupsert, h]

@[simp]
theorem alookup_aupsert_self {β : Type} (k : String) (v : β) (l : List (String × β)) :
    alookup k (aupsert k v l) = some v := by
  induction l with
  | nil => simp [aupsert, alookup]
  | cons p rest ih =>
    obtain ⟨k₀, v₀⟩ := p
    by_cases h : k₀ = k
    · rw [aupsert_cons_eq h, alookup_cons, if_pos h]
    · rw [aupsert_cons_ne h, alookup_cons, if_neg h, ih]

theorem alookup_aupsert_ne {β : Type} {k k' : String} (h : k' ≠ k) (v : β)
    (l : List (String × β)) : alookup k' (aupsert k v l) = alookup k' l := by
  induction l with
  | nil => simp [aupsert, alookup, Ne.symm h]
  | cons p rest ih =>
    obtain ⟨k₀, v₀⟩ := p
    by_cases h₀ : k₀ = k
    · rw [aupsert_cons_eq h₀, alookup_cons, alookup_cons]
      simp [h₀, Ne.symm h]
    · rw [aupsert_cons_ne h₀, alookup_cons, alookup_cons, ih]

theorem mem_keys_aupsert {β : Type} {w k : String} {v : β} {l : List (String × β)}
    (h : w ∈ (aupsert k v l).map Prod.fst) : w ∈ l.map Prod.fst ∨ w = k := by
  induction l with
  | nil =>
    simp at h
    exact Or.inr h
  | cons p rest ih =>
    obtain ⟨k₀, v₀⟩ := p
    by_cases h₀ : k₀ = k
    · rw [aupsert_cons_eq h₀] at h
      simp only [List.map_cons, List.mem_cons] at h ⊢
      exact Or.inl h
    · rw [aupsert_cons_ne h₀] at h
      simp only [List.map_cons, List.mem_cons] at h ⊢
      rcases h with h | h
      · exact Or.inl (Or.inl h)
      · rcases ih h with h | h
        · exact Or.inl (Or.inr h)
        · exact Or.inr h

theorem alookup_append_right_of_none {β : Type} {k : String} {l₁ : List (String × β)}
    (h : alookup k l₁ = none) (l₂ : List (String × β)) :
    alookup k (l₁ ++ l₂) = alookup k l₂ := by
  induction l₁ with
  | nil => simp
  | cons p rest ih =>
    obtain ⟨k₀, v₀⟩ := p
    rw [alookup_cons] at h
    by_cases h₀ : k₀ = k
    · rw [if_pos h₀] at h
      exact absurd h (by simp)
    · rw [if_neg h₀] at h
      rw [List.cons_append, alookup_cons, if_neg h₀, ih h]

theorem alookup_append_left_of_some {β : Type} {k : String} {l₁ : List (String × β)}
    {v : β} (h : alookup k l₁ = some v) (l₂ : List (String × β)) :
    alookup k (l₁ ++ l₂) = some v := by
  induction l₁ with
  | nil => simp [alookup] at h
  | cons p rest ih =>
    obtain ⟨k₀, v₀⟩ := p
    rw [alookup_cons] at h
    by_cases h₀ : k₀ = k
    · rw [if_pos h₀] at h
      rw [List.cons_append, alookup_cons, if_pos h₀]
      exact h
    · rw [if_neg h₀] at h
      rw [List.cons_append, alookup_cons, if_neg h₀, ih h]

/-! ## Comparator lemmas -/

@[simp]
theorem compareParts_nil_left (b : List Int) :
    compareParts [] b = -(b.length : Int) := by
  cases b <;> rfl

@[simp]
theorem compareParts_cons_nil (a : Int) (as : List Int) :
    compareParts (a :: as) [] = ((a :: as).length : Int) := rfl

@[simp]
theorem compareParts_cons_cons (a b : Int) (as bs : List Int) :
    compareParts (a :: as) (b :: bs) =
      if a < b then -1 else if b < a then 1 else compareParts as bs := rfl

theorem compareParts_self (a : List Int) : compareParts a a = 0 := by
  induction a with
  | nil => simp
  | cons x xs ih => simp [ih]

theorem compareParts_swap (a b : List Int) : compareParts a b = -compareParts b a := by
  induction a generalizing b with
  | nil =>
    cases b with
    | nil => simp
    | cons y ys => simp
  | cons x xs ih =>
    cases b with
    | nil => simp
    | cons y ys =>
      by_cases h₁ : x < y
      · have h₂ : ¬y < x := not_lt.mpr (le_of_lt h₁)
        simp [h₁, h₂]
      · by_cases h₂ : y < x
        · simp [h₁, h₂]
        · simp [h₁, h₂, ih]

theorem compareParts_trans_nonpos {a b c : List Int}
    (hab : compareParts a b ≤ 0) (hbc : compareParts b c ≤ 0) :
    compareParts a c ≤ 0 := by
  induction a generalizing b c with
  | nil =>
    simp
  | cons x xs ih =>
    cases b with
    | nil =>
      exfalso
      simp at hab
      omega
    | cons y ys =>
      cases c with
      | nil =>
        exfalso
        simp at hbc
        omega
      | cons z zs =>
        simp only [compareParts_cons_cons] at hab hbc ⊢
        by_cases hxy : x < y
        · by_cases hyz : y < z
          · have hxz : x < z := hxy.trans hyz
            simp [hxz]
          · by_cases hzy : z < y
            · simp [hyz, hzy] at hbc
            · have hyz' : y = z := le_antisymm (not_lt.mp hzy) (not_lt.mp hyz)
              subst hyz'
              simp [hxy]
        · by_cases hyx : y < x
          · simp [hxy, hyx] at hab
          · have hxy' : x = y := le_antisymm (not_lt.mp hyx) (not_lt.mp hxy)
            subst hxy'
            simp only [lt_self_iff_false, if_false] at hab
            by_cases hxz : x < z
            · simp [hxz]
            · by_cases hzx : z < x
              · simp [hxz, hzx] at hbc
              · have hxz' : x = z := le_antisymm (not_lt.mp hzx) (not_lt.mp hxz)
                subst hxz'
                simp only [lt_self_iff_false, if_false] at hbc ⊢
                exact ih hab hbc

/-! ## Unfolding lemmas for the registry operations -/

theorem get_schema_some_version (r : Registry) (t ver : String) :
    get_schema r t (some ver) =
      match alookup t r.schemas with
      | none => none
      | some vs => (alookup ver vs).map (fun sv => sv.schema_class) := by
  unfold get_schema
  cases alookup t r.schemas <;> rfl

theorem get_schema_no_version (r : Registry) (t : String) :
    get_schema r t none =
      match alookup t r.schemas with
      | none => none
      | some vs =>
        match alookup t r.latest_versions with
        | none => none
        | some ver => (alookup ver vs).map (fun sv => sv.schema_class) := by
  unfold get_schema
  cases alookup t r.schemas with
  | none => rfl
  | some vs => cases alookup t r.latest_versions <;> rfl

theorem compare_versions_eq_some {v1 v2 : String} {c : Int}
    (h : compare_versions v1 v2 = some c) :
    ∃ p1 p2, parse_version v1 = some p1 ∧ parse_version v2 = some p2 ∧
      compareParts p1 p2 = c := by
  cases h1 : parse_version v1 with
  | none => simp [compare_versions, h1] at h
  | some p1 =>
    cases h2 : parse_version v2 with
    | none => simp [compare_versions, h1, h2] at h
    | some p2 =>
      refine ⟨p1, p2, rfl, rfl, ?_⟩
      simpa [compare_versions, h1, h2] using h

/-- A successful `register_schema` implies: the event type was valid, the
pair was not yet present, the schema map got the new entry, and the latest
pointer either stayed or moved to the new version. -/
theorem register_schema_ok_cases {r r' : Registry} {t : String} {s : Nat}
    {v : String} {n : Nat} (hok : register_schema r t s v n = .ok r') :
    validate_event_type t = true ∧
    (∀ vs, alookup t r.schemas = some vs → alookup v vs = none) ∧
    r'.schemas = upsertSchema t v ⟨v, s, n, false, [], none⟩ r.schemas ∧
    (r'.latest_versions = r.latest_versions ∨
      r'.latest_versions = aupsert t v r.latest_versions) := by
  unfold register_schema at hok
  by_cases hval : validate_event_type t
  case neg =>
    exfalso
    rw [Bool.not_eq_true] at hval
    rw [hval] at hok
    simp at hok
  rw [hval] at hok
  simp only [Bool.not_true, Bool.false_eq_true, if_false] at hok
  refine ⟨hval, ?_⟩
  cases hsch : alookup t r.schemas with
  | none =>
    simp only [hsch, Option.elim] at hok
    refine ⟨?_, ?_⟩
    · intro vs hvs
      simp at hvs
    · cases hlat : alookup t r.latest_versions with
      | none =>
        simp only [hlat] at hok
        cases hok
        exact ⟨rfl, Or.inr rfl⟩
      | some cur =>
        simp only [hlat] at hok
        cases hc : compare_versions v cur with
        | none =>
          simp only [hc] at hok
          cases hok
        | some c =>
          simp only [hc] at hok
          by_cases hpos : 0 < c
          · rw [if_pos hpos] at hok
            cases hok
            exact ⟨rfl, Or.inr rfl⟩
          · rw [if_neg hpos] at hok
            cases hok
            exact ⟨rfl, Or.inl rfl⟩
  | some vs =>
    simp only [hsch, Option.elim] at hok
    cases hv : alookup v vs with
    | some sv0 =>
      simp [hv] at hok
    | none =>
      simp only [hv, Option.isSome_none, Bool.false_eq_true, if_false] at hok
      refine ⟨?_, ?_⟩
      · intro vs2 hvs2
        cases hvs2
        exact hv
      · cases hlat : alookup t r.latest_versions with
        | none =>
          simp only [hlat] at hok
          cases hok
          exact ⟨rfl, Or.inr rfl⟩
        | some cur =>
          simp only [hlat] at hok
          cases hc : compare_versions v cur with
          | none =>
            simp only [hc] at hok
            cases hok
          | some c =>
            simp only [hc] at hok
            by_cases hpos : 0 < c
            · rw [if_pos hpos] at hok
              cases hok
              exact ⟨rfl, Or.inr rfl⟩
            · rw [if_neg hpos] at hok
              cases hok
              exact ⟨rfl, Or.inl rfl⟩

theorem alookup_append_singleton_ne {β : Type} {k k₂ : String} (h : k ≠ k₂)
    (x : β) (l : List (String × β)) :
    alookup k (l ++ [(k₂, x)]) = alookup k l := by
  cases hl : alookup k l with
  | some v => exact alookup_append_left_of_some hl _
  | none =>
    rw [alookup_append_right_of_none hl, alookup_cons, if_neg (Ne.symm h), alookup_nil]

theorem emptyRegistry_LatestInv : LatestInv emptyRegistry := by
  constructor
  · intro t vs hvs
    simp [emptyRegistry] at hvs
  · intro t v hv
    simp [emptyRegistry] at hv

theorem register_schema_preserves_LatestInv {r r' : Registry} {t : String}
    {s : Nat} {v : String} {n : Nat} (hinv : LatestInv r)
    (hok : register_schema r t s v n = .ok r') : LatestInv r' := by
  obtain ⟨hinv1, hinv2⟩ := hinv
  unfold register_schema at hok
  by_cases hval : validate_event_type t
  case neg =>
    exfalso
    rw [Bool.not_eq_true] at hval
    rw [hval] at hok
    simp at hok
  rw [hval] at hok
  simp only [Bool.not_true, Bool.false_eq_true, if_false] at hok
  cases hsch : alookup t r.schemas with
  | none =>
    have hlat : alookup t r.latest_versions = none := by
      cases hl : alookup t r.latest_versions with
      | none => rfl
      | some cur => exact absurd hsch (hinv2 t cur hl)
    simp only [hsch, Option.elim, hlat] at hok
    cases hok
    have hup : upsertSchema t v ⟨v, s, n, false, [], none⟩ r.schemas
        = r.schemas ++ [(t, [(v, ⟨v, s, n, false, [], none⟩)])] := by
      unfold upsertSchema
      rw [hsch]
    constructor
    · intro t' vs' hvs'
      dsimp only at hvs' ⊢
      rw [hup] at hvs'
      by_cases ht : t' = t
      · subst ht
        rw [alookup_append_right_of_none hsch, alookup_cons, if_pos rfl] at hvs'
        cases hvs'
        refine ⟨v, ⟨v, s, n, false, [], none⟩, alookup_aupsert_self .., ?_, ?_⟩
        · rw [alookup_cons, if_pos rfl]
        · intro w hw pw pv hpw hpv
          simp only [List.map_cons, List.map_nil, List.mem_singleton] at hw
          subst hw
          rw [hpw] at hpv
          cases hpv
          rw [compareParts_self]
      · rw [alookup_append_singleton_ne ht] at hvs'
        obtain ⟨v1, sv1, hl1, hsv1, hmax1⟩ := hinv1 t' vs' hvs'
        exact ⟨v1, sv1, by rw [alookup_aupsert_ne ht]; exact hl1, hsv1, hmax1⟩
    · intro t' v' hl'
      dsimp only at hl' ⊢
      by_cases ht : t' = t
      · subst ht
        rw [hup, alookup_append_right_of_none hsch, alookup_cons, if_pos rfl]
        simp
      · rw [alookup_aupsert_ne ht] at hl'
        have hne := hinv2 t' v' hl'
        rw [hup, alookup_append_singleton_ne ht]
        exact hne
  | some vs =>
    obtain ⟨v0, sv0, hl0, hsv0, hmax0⟩ := hinv1 t vs hsch
    simp only [hsch, Option.elim] at hok
    cases hv : alookup v vs with
    | some sv1 =>
      simp [hv] at hok
    | none =>
      simp only [hv, Option.isSome_none, Bool.false_eq_true, if_false, hl0] at hok
      cases hc : compare_versions v v0 with
      | none =>
        simp only [hc] at hok
        cases hok
      | some c =>
        simp only [hc] at hok
        obtain ⟨pn, pv0, hpn, hpv0, hcp⟩ := compare_versions_eq_some hc
        have hup : upsertSchema t v ⟨v, s, n, false, [], none⟩ r.schemas
            = aupsert t (aupsert v ⟨v, s, n, false, [], none⟩ vs) r.schemas := by
          unfold upsertSchema
          rw [hsch]
        by_cases hpos : 0 < c
        · rw [if_pos hpos] at hok
          cases hok
          constructor
          · intro t' vs' hvs'
            dsimp only at hvs' ⊢
            rw [hup] at hvs'
            by_cases ht : t' = t
            · subst ht
              rw [alookup_aupsert_self] at hvs'
              cases hvs'
              refine ⟨v, ⟨v, s, n, false, [], none⟩, alookup_aupsert_self .., alookup_aupsert_self .., ?_⟩
              intro w hw pw pv hpw hpv
              rw [hpn] at hpv
              cases hpv
              rcases mem_keys_aupsert hw with hold | hnew
              · have h1 : compareParts pw pv0 ≤ 0 := hmax0 w hold pw pv0 hpw hpv0
                have h2 : compareParts pv0 pn ≤ 0 := by
                  have hs := compareParts_swap pn pv0
                  omega
                exact compareParts_trans_nonpos h1 h2
              · subst hnew
                rw [hpn] at hpw
                cases hpw
                rw [compareParts_self]
            · rw [alookup_aupsert_ne ht] at hvs'
              obtain ⟨v1, sv1, hl1, hsv1, hmax1⟩ := hinv1 t' vs' hvs'
              exact ⟨v1, sv1, by rw [alookup_aupsert_ne ht]; exact hl1, hsv1, hmax1⟩
          · intro t' v' hl'
            dsimp only at hl' ⊢
            by_cases ht : t' = t
            · subst ht
              rw [hup, alookup_aupsert_self]
              simp
            · rw [alookup_aupsert_ne ht] at hl'
              have hne := hinv2 t' v' hl'
              rw [hup, alookup_aupsert_ne ht]
              exact hne
        · rw [if_neg hpos] at hok
          cases hok
          have hvne : v ≠ v0 := by
            intro h
            rw [h] at hv
            rw [hv] at hsv0
            cases hsv0
          constructor
          · intro t' vs' hvs'
            dsimp only at hvs' ⊢
            rw [hup] at hvs'
            by_cases ht : t' = t
            · subst ht
              rw [alookup_aupsert_self] at hvs'
              cases hvs'
              refine ⟨v0, sv0, hl0, ?_, ?_⟩
              · rw [alookup_aupsert_ne (Ne.symm hvne)]
                exact hsv0
              · intro w hw pw pv hpw hpv
                rw [hpv0] at hpv
                cases hpv
                rcases mem_keys_aupsert hw with hold | hnew
                · exact hmax0 w hold pw pv0 hpw hpv0
                · subst hnew
                  rw [hpn] at hpw
                  cases hpw
                  omega
            · rw [alookup_aupsert_ne ht] at hvs'
              obtain ⟨v1, sv1, hl1, hsv1, hmax1⟩ := hinv1 t' vs' hvs'
              exact ⟨v1, sv1, hl1, hsv1, hmax1⟩
          · intro t' v' hl'
            dsimp only at hl' ⊢
            by_cases ht : t' = t
            · subst ht
              rw [hup, alookup_aupsert_self]
              simp
            · have hne := hinv2 t' v' hl'
              rw [hup, alookup_aupsert_ne ht]
              exact hne

/-- Run a sequence of register calls: successful runs preserve the
latest-pointer invariant. -/
theorem runRegisters_preserves_LatestInv :
    ∀ (calls : List (String × Nat × String × Nat)) (r r' : Registry),
      LatestInv r → runRegisters r calls = (r', none) → LatestInv r' := by
  intro calls
  induction calls with
  | nil =>
    intro r r' hinv hrun
    unfold runRegisters at hrun
    cases hrun
    exact hinv
  | cons c rest ih =>
    intro r r' hinv hrun
    obtain ⟨t, s, v, n⟩ := c
    unfold runRegisters at hrun
    cases hreg : register_schema r t s v n with
    | ok r1 =>
      rw [hreg] at hrun
      exact ih r1 r' (register_schema_preserves_LatestInv hinv hreg) hrun
    | err e r1 =>
      rw [hreg] at hrun
      cases hrun

/-! ## Claim theorems -/

/-- C1: for every valid event type, after any sequence of successful
register calls starting from a fresh registry, `get_schema(event_type)`
with no version argument resolves through the latest pointer to a
registered version that is maximal under the numeric integer-sequence
comparator (not string order) and returns that version's stored schema
definition. -/
theorem C1_get_schema_resolves_numeric_latest
    (calls : List (String × Nat × String × Nat)) (r : Registry)
    (t : String) (vs : List (String × SchemaVersion))
    (hrun : runRegisters emptyRegistry calls = (r, none))
    (hvs : alookup t r.schemas = some vs) :
    ∃ v sv, alookup t r.latest_versions = some v ∧ alookup v vs = some sv ∧
      get_schema r t none = some sv.schema_class ∧ latestMaximal vs v := by
  have hinv := runRegisters_preserves_LatestInv calls emptyRegistry r
    emptyRegistry_LatestInv hrun
  obtain ⟨v, sv, hl, hsv, hmax⟩ := hinv.1 t vs hvs
  refine ⟨v, sv, hl, hsv, ?_, hmax⟩
  rw [get_schema_no_version]
  simp only [hvs, hl, hsv, Option.map_some']

/-- Witness for C1: registering "1.2", then "1.1", then "1.10" makes the
version-less lookup resolve to "1.10" (numeric, not lexicographic order). -/
theorem C1_witness :
    (∃ v sv, alookup "order.created" sampleRegNumeric.latest_versions = some v ∧
      alookup v sampleVersionsNumeric = some sv ∧
      get_schema sampleRegNumeric "order.created" none = some sv.schema_class ∧
      latestMaximal sampleVersionsNumeric v) ∧
    alookup "order.created" sampleRegNumeric.latest_versions = some "1.10" ∧
    get_schema sampleRegNumeric "order.created" none = some 3 :=
  ⟨C1_get_schema_resolves_numeric_latest sampleCallsNumeric sampleRegNumeric
      "order.created" sampleVersionsNumeric (by decide) (by decide),
    by decide, by decide⟩

/-- C2 (code bug evidence): the comparator's docstring and the
specification promise a result of -1, 0 or 1, but on well-formed versions
of different lengths with an equal common prefix the code returns the
length difference of the parsed tuples: `compare_versions "1.0.0" "1"` is
`2`, and the swapped call is `-2`. -/
theorem C2_compare_versions_out_of_range :
    compare_versions "1.0.0" "1" = some 2 ∧
    compare_versions "1" "1.0.0" = some (-2) ∧
    (2 : Int) ≠ -1 ∧ (2 : Int) ≠ 0 ∧ (2 : Int) ≠ 1 := by
  decide

/-- Counterexample for C3: a raw event with a valid metadata mapping and a
missing `data` entry, validated against a registry with no schema for the
declared pair, fails with SchemaNotFoundError — not MalformedEventError as
the claim states: the `data` structural check runs only after schema
resolution. -/
theorem C3_counterexample :
    validate_event emptyRegistry (fun _ _ => true) rawEventMissingData
      = .error .schemaNotFound ∧
    Except.error ValidateError.schemaNotFound
      ≠ (Except.error ValidateError.malformedEvent :
          Except ValidateError ValidatedEvent) := by
  decide

/-- C3 (amended): a missing or non-mapping `metadata` entry always yields
MalformedEventError, for every registry state; a missing or non-mapping
`data` entry yields MalformedEventError only once metadata parses and the
schema resolves; when no schema is registered for the declared pair,
SchemaNotFoundError is raised before the `data` check is reached. -/
theorem C3_structural_checks (r : Registry) (accepts : Nat → Nat → Bool)
    (ev : RawEvent) :
    ((ev.metadata = .absent ∨ ev.metadata = .notMapping) →
      validate_event r accepts ev = .error .malformedEvent) ∧
    (∀ m md, ev.metadata = .mapping m → parseEventMetadata m = some md →
      get_schema r md.event_type (some md.event_version) = none →
      validate_event r accepts ev = .error .schemaNotFound) ∧
    (∀ m md sid, ev.metadata = .mapping m → parseEventMetadata m = some md →
      get_schema r md.event_type (some md.event_version) = some sid →
      (ev.data = .absent ∨ ev.data = .notMapping) →
      validate_event r accepts ev = .error .malformedEvent) := by
  refine ⟨?_, ?_, ?_⟩
  · intro h
    unfold validate_event
    rcases h with h | h <;> rw [h]
  · intro m md hm hmd hns
    unfold validate_event
    rw [hm]
    simp only [hmd, hns]
  · intro m md sid hm hmd hs hd
    unfold validate_event
    rw [hm]
    simp only [hmd, hs]
    rcases hd with hd | hd <;> rw [hd]

/-- Witness for C3 (amended): a non-mapping metadata entry is malformed on
the empty registry; a missing `data` entry is malformed once the schema
resolves. -/
theorem C3_witness :
    validate_event emptyRegistry (fun _ _ => true)
      ⟨RawField.notMapping, RawField.mapping 0⟩ = .error .malformedEvent ∧
    validate_event sampleRegOne (fun _ _ => true) ⟨rawEventMissingData.1, RawField.absent⟩
      = .error .malformedEvent :=
  ⟨(C3_structural_checks emptyRegistry (fun _ _ => true)
      ⟨RawField.notMapping, RawField.mapping 0⟩).1 (Or.inr rfl),
   (C3_structural_checks sampleRegOne (fun _ _ => true)
      ⟨rawEventMissingData.1, RawField.absent⟩).2.2 ⟨some "order.created", some "1.0", true⟩
      ⟨"order.created", "1.0"⟩ 1 rfl (by decide) (by decide) (Or.inl rfl)⟩

/-- When the type is registered and sorting succeeds,
`get_schema_evolution_path` is the endpoint search plus inclusive slice on
the sorted version list. -/
theorem evolution_path_eq {r : Registry} {t : String}
    {vs : List (String × SchemaVersion)} {sorted : List String}
    (hvs : alookup t r.schemas = some vs)
    (hsort : sortVersionKeys (vs.map Prod.fst) = .ok sorted) (f g : String) :
    get_schema_evolution_path r t f g =
      match sorted.findIdx? (fun x => x == f), sorted.findIdx? (fun x => x == g) with
      | some si, some ei =>
        if ei < si then .ok [] else .ok ((sorted.drop si).take (ei - si + 1))
      | _, _ => .ok [] := by
  unfold get_schema_evolution_path
  rw [hvs]
  show (sortVersionKeys (vs.map Prod.fst)).bind _ = _
  rw [hsort]
  rfl

/-- A successful `sortVersionKeys` is the stable sort of the keys. -/
theorem sortVersionKeys_ok {keys sorted : List String}
    (h : sortVersionKeys keys = .ok sorted) :
    sorted = keys.insertionSort versionKeyLe := by
  unfold sortVersionKeys at h
  by_cases hall : keys.all (fun v => (parse_version v).isSome)
  · rw [if_pos hall] at h
    cases h
    rfl
  · rw [if_neg hall] at h
    cases h

/-- Counterexample for C4: after successfully registering the unparseable
version "abc" as the only registered version of `order.created`, the
evolution-path query with unregistered endpoints raises VersionParseError
instead of returning the empty list the claim promises. -/
theorem C4_counterexample :
    (runRegisters emptyRegistry [("order.created", 7, "abc", 0)]).2 = none ∧
    list_event_types sampleRegAbc = ["order.created"] ∧
    alookup "order.created" sampleRegAbc.schemas
      = some [("abc", ⟨"abc", 7, 0, false, [], none⟩)] ∧
    get_schema_evolution_path sampleRegAbc "order.created" "1.0" "1.1"
      = .error .versionParse := by
  decide

/-- C4 (amended): provided every registered version of the event type
parses (so the sort does not raise), `get_schema_evolution_path` returns
the empty list exactly when the type is unknown, an endpoint is not a
registered version, or the endpoints are reversed in sorted order, and
otherwise returns the non-empty inclusive slice of the sorted version list
between the two endpoint positions.  Concretely, with "1.0", "1.1", "1.2"
registered, the forward path is all three versions and the reversed call
yields the empty list. -/
theorem C4_evolution_path (r : Registry) (t : String) :
    (alookup t r.schemas = none →
      ∀ f g, get_schema_evolution_path r t f g = .ok []) ∧
    (∀ vs, alookup t r.schemas = some vs →
      ∀ sorted, sortVersionKeys (vs.map Prod.fst) = .ok sorted →
      ∀ f g,
        ((f ∉ vs.map Prod.fst ∨ g ∉ vs.map Prod.fst) →
          get_schema_evolution_path r t f g = .ok []) ∧
        (∀ si ei, sorted.findIdx? (fun x => x == f) = some si →
          sorted.findIdx? (fun x => x == g) = some ei →
          (ei < si → get_schema_evolution_path r t f g = .ok []) ∧
          (si ≤ ei →
            get_schema_evolution_path r t f g
              = .ok ((sorted.drop si).take (ei - si + 1)) ∧
            (sorted.drop si).take (ei - si + 1) ≠ []))) ∧
    (get_schema_evolution_path sampleRegEvo "order.created" "1.0" "1.2"
        = .ok ["1.0", "1.1", "1.2"] ∧
      get_schema_evolution_path sampleRegEvo "order.created" "1.2" "1.0"
        = .ok []) := by
  refine ⟨?_, ?_, by decide, by decide⟩
  · intro h f g
    unfold get_schema_evolution_path
    rw [h]
  · intro vs hvs sorted hsort f g
    have hmem : ∀ x : String, x ∈ sorted ↔ x ∈ vs.map Prod.fst := by
      intro x
      rw [sortVersionKeys_ok hsort]
      exact List.mem_insertionSort versionKeyLe
    constructor
    · intro hmiss
      have hpath := evolution_path_eq hvs hsort f g
      rcases hmiss with hf | hg
      · have hfs : sorted.findIdx? (fun x => x == f) = none := by
          rw [List.findIdx?_eq_none_iff]
          intro x hx
          simp only [beq_eq_false_iff_ne, ne_eq]
          intro heq
          exact hf (heq ▸ (hmem x).mp hx)
        cases hgi : sorted.findIdx? (fun x => x == g) with
        | none => simp only [hpath, hfs, hgi]
        | some ei => simp only [hpath, hfs, hgi]
      · have hgs : sorted.findIdx? (fun x => x == g) = none := by
          rw [List.findIdx?_eq_none_iff]
          intro x hx
          simp only [beq_eq_false_iff_ne, ne_eq]
          intro heq
          exact hg (heq ▸ (hmem x).mp hx)
        cases hfi : sorted.findIdx? (fun x => x == f) with
        | none => simp only [hpath, hgs, hfi]
        | some si => simp only [hpath, hgs, hfi]
    · intro si ei hsi hei
      obtain ⟨heilen, -⟩ := List.findIdx?_eq_some_iff_getElem.mp hei
      have hpath := evolution_path_eq hvs hsort f g
      constructor
      · intro hlt
        rw [hpath]
        simp only [hsi, hei]
        rw [if_pos hlt]
      · intro hle
        refine ⟨?_, ?_⟩
        · rw [hpath]
          simp only [hsi, hei]
          rw [if_neg (not_lt.mpr hle)]
        · apply List.ne_nil_of_length_pos
          rw [List.length_take, List.length_drop]
          omega

/-- Witness for C4 (amended): the unknown-type case, a missing endpoint,
and the forward slice on the concrete "1.0"/"1.1"/"1.2" registry. -/
theorem C4_witness :
    get_schema_evolution_path sampleRegEvo "cart.created" "1.0" "1.2" = .ok [] ∧
    get_schema_evolution_path sampleRegEvo "order.created" "9.9" "1.2" = .ok [] ∧
    get_schema_evolution_path sampleRegEvo "order.created" "1.0" "1.2"
      = .ok (((["1.0", "1.1", "1.2"] : List String).drop 0).take 3) ∧
    ((["1.0", "1.1", "1.2"] : List String).drop 0).take 3 ≠ [] :=
  ⟨(C4_evolution_path sampleRegEvo "cart.created").1 (by decide) "1.0" "1.2",
   ((C4_evolution_path sampleRegEvo "order.created").2.1 sampleVersionsEvo (by decide)
       ["1.0", "1.1", "1.2"] (by decide) "9.9" "1.2").1 (Or.inl (by decide)),
   (((C4_evolution_path sampleRegEvo "order.created").2.1 sampleVersionsEvo (by decide)
       ["1.0", "1.1", "1.2"] (by decide) "1.0" "1.2").2 0 2 (by decide) (by decide)).2
     (by decide)⟩

/-- Registering an already-present `(event_type, version)` pair raises the
duplicate error before any mutation: the returned error carries the
unchanged registry state. -/
theorem register_schema_duplicate {r : Registry} {t v : String}
    {vs : List (String × SchemaVersion)} {sv : SchemaVersion}
    (hval : validate_event_type t = true)
    (hvs : alookup t r.schemas = some vs) (hsv : alookup v vs = some sv)
    (s n : Nat) : register_schema r t s v n = .err .duplicateSchema r := by
  unfold register_schema
  rw [hval]
  simp only [Bool.not_true, Bool.false_eq_true, if_false, hvs, Option.elim, hsv,
    Option.isSome_some, if_true]

/-- C5: in every registry state where the pair (valid event type, version)
is already registered, a further register call for the same pair fails with
DuplicateSchemaError and leaves the state unchanged (the error carries the
input state untouched); in particular register immediately followed by
register of the identical pair always raises, whatever the prior state. -/
theorem C5_duplicate_registration (r r' : Registry) (t v : String)
    (s s' n n' : Nat) :
    (∀ vs sv, validate_event_type t = true → alookup t r.schemas = some vs →
      alookup v vs = some sv →
      register_schema r t s v n = .err .duplicateSchema r) ∧
    (register_schema r t s v n = .ok r' →
      register_schema r' t s' v n' = .err .duplicateSchema r') := by
  constructor
  · intro vs sv hval hvs hsv
    exact register_schema_duplicate hval hvs hsv s n
  · intro hok
    obtain ⟨hval, hdup, hsch, -⟩ := register_schema_ok_cases hok
    cases hcur : alookup t r.schemas with
    | none =>
      have hvs : alookup t r'.schemas = some [(v, ⟨v, s, n, false, [], none⟩)] := by
        rw [hsch]
        unfold upsertSchema
        rw [hcur, alookup_append_right_of_none hcur, alookup_cons, if_pos rfl]
      exact register_schema_duplicate hval hvs (by rw [alookup_cons, if_pos rfl]) s' n'
    | some vs =>
      have hvs : alookup t r'.schemas
          = some (aupsert v ⟨v, s, n, false, [], none⟩ vs) := by
        rw [hsch]
        unfold upsertSchema
        rw [hcur, alookup_aupsert_self]
      exact register_schema_duplicate hval hvs (alookup_aupsert_self ..) s' n'

/-- Witness for C5: both conjuncts at the concrete one-schema registry. -/
theorem C5_witness :
    register_schema sampleRegOne "order.created" 9 "1.0" 9
      = .err .duplicateSchema sampleRegOne ∧
    register_schema sampleRegOne "order.created" 2 "1.0" 5
      = .err .duplicateSchema sampleRegOne :=
  ⟨(C5_duplicate_registration sampleRegOne sampleRegOne "order.created" "1.0" 9 9 9 9).1
      [("1.0", ⟨"1.0", 1, 0, false, [], none⟩)] ⟨"1.0", 1, 0, false, [], none⟩
      (by decide) (by decide) (by decide),
   (C5_duplicate_registration emptyRegistry sampleRegOne "order.created" "1.0" 1 2 0 5).2
      (by decide)⟩

/-- C6: round trip of registration and lookup.  A successful registration
makes the versioned lookup return exactly the registered definition, and
any later successful registration (of a necessarily different pair) keeps
every existing versioned lookup intact.  The claim scenario: S1 under
"1.0", then S2 under "1.1"; the version-less lookup moves from S1 to S2
while `get_schema(type, "1.0")` still returns S1 and `list_versions`
returns both versions in numeric order. -/
theorem C6_round_trip :
    (∀ (r r' : Registry) (t : String) (s : Nat) (v : String) (n : Nat),
      register_schema r t s v n = .ok r' → get_schema r' t (some v) = some s) ∧
    (∀ (r r' : Registry) (t v : String) (S : Nat) (t2 : String) (s2 : Nat)
        (v2 : String) (n2 : Nat),
      get_schema r t (some v) = some S → register_schema r t2 s2 v2 n2 = .ok r' →
      get_schema r' t (some v) = some S) ∧
    (runRegisters emptyRegistry
        [("order.created", 1, "1.0", 0), ("order.created", 2, "1.1", 1)]).2 = none ∧
    get_schema sampleRegOne "order.created" none = some 1 ∧
    get_schema sampleRegTwo "order.created" none = some 2 ∧
    get_schema sampleRegTwo "order.created" (some "1.0") = some 1 ∧
    list_versions sampleRegTwo "order.created" = .ok ["1.0", "1.1"] := by
  refine ⟨?_, ?_, by decide, by decide, by decide, by decide, by decide⟩
  · intro r r' t s v n hok
    obtain ⟨-, hdup, hsch, -⟩ := register_schema_ok_cases hok
    rw [get_schema_some_version, hsch]
    unfold upsertSchema
    cases hcur : alookup t r.schemas with
    | none =>
      simp [alookup_append_right_of_none hcur, alookup_cons]
    | some vs =>
      simp
  · intro r r' t v S t2 s2 v2 n2 hget hok
    obtain ⟨-, hdup, hsch, -⟩ := register_schema_ok_cases hok
    rw [get_schema_some_version] at hget
    cases hcur : alookup t r.schemas with
    | none =>
      simp [hcur] at hget
    | some vs =>
      simp only [hcur] at hget
      rw [get_schema_some_version, hsch]
      unfold upsertSchema
      by_cases ht : t = t2
      · subst ht
        have hvne : v ≠ v2 := by
          intro h
          rw [h, hdup vs hcur] at hget
          simp at hget
        simp only [hcur, alookup_aupsert_self, alookup_aupsert_ne hvne]
        exact hget
      · cases hcur2 : alookup t2 r.schemas with
        | none =>
          simp only [hcur2, alookup_append_singleton_ne ht, hcur]
          exact hget
        | some vs2 =>
          simp only [hcur2, alookup_aupsert_ne ht, hcur]
          exact hget

/-- Witness for C6: both universal parts applied on the concrete
one- and two-schema registries. -/
theorem C6_witness :
    get_schema sampleRegOne "order.created" (some "1.0") = some 1 ∧
    get_schema sampleRegTwo "order.created" (some "1.0") = some 1 :=
  ⟨C6_round_trip.1 emptyRegistry sampleRegOne "order.created" 1 "1.0" 0 (by decide),
   C6_round_trip.2.1 sampleRegOne sampleRegTwo "order.created" "1.0" 1
      "order.created" 2 "1.1" 1 (by decide) (by decide)⟩

/-- Every enumerated event type value contains a dot. -/
theorem eventValues_contain_dot :
    ∀ c : EventCategory, ∀ v ∈ eventValues c, '.' ∈ v.data := by
  intro c
  cases c <;> decide

theorem splitChars_no_dot :
    ∀ (cs acc : List Char), '.' ∉ cs → splitChars acc cs = [acc.reverse ++ cs] := by
  intro cs
  induction cs with
  | nil =>
    intro acc h
    simp [splitChars]
  | cons c rest ih =>
    intro acc h
    have hc : ¬c = '.' := by
      intro hc
      exact h (by simp [hc])
    have hr : '.' ∉ rest := fun hr => h (List.mem_cons_of_mem c hr)
    simp only [splitChars, if_neg hc, ih (c :: acc) hr]
    simp

theorem splitOnDot_no_dot {s : String} (h : '.' ∉ s.data) : splitOnDot s = [s] := by
  unfold splitOnDot
  rw [splitChars_no_dot s.data [] h]
  simp

/-- Counterexample for C7: for the dot-less string "order" (a category
name), `get_event_category` returns the category rather than the `none`
the claim asserts for every dot-less input. -/
theorem C7_counterexample :
    get_event_category "order" = some EventCategory.order ∧
    validate_event_type "order" = false := by
  decide

/-- C7 (amended): classification and validation are total functions; the
empty string classifies to nothing and never validates; a string without a
dot never validates, and classifies exactly as the category lookup of the
whole string (so it is `none` unless the string itself is a category
name); an unrecognized prefix yields `none`/`false`; and validation holds
exactly for exact members of the classified category's enumerated set. -/
theorem C7_classification_total (s : String) :
    (get_event_category "" = none ∧ validate_event_type "" = false) ∧
    ('.' ∉ s.data →
      get_event_category s = categoryFromString s ∧
      validate_event_type s = false) ∧
    (categoryFromString ((splitOnDot s).headD "") = none →
      get_event_category s = none ∧ validate_event_type s = false) ∧
    (validate_event_type s = true ↔
      ∃ c, get_event_category s = some c ∧ s ∈ eventValues c) := by
  refine ⟨by decide, ?_, ?_, ?_⟩
  · intro h
    have hcat : get_event_category s = categoryFromString s := by
      unfold get_event_category
      rw [splitOnDot_no_dot h]
      rfl
    refine ⟨hcat, ?_⟩
    unfold validate_event_type
    rw [hcat]
    cases hc : categoryFromString s with
    | none => rfl
    | some c =>
      rw [List.any_eq_false]
      intro v hv
      intro heq
      have hveq : v = s := eq_of_beq heq
      subst hveq
      exact h (eventValues_contain_dot c v hv)
  · intro h
    have hcat : get_event_category s = none := h
    refine ⟨hcat, ?_⟩
    unfold validate_event_type
    rw [hcat]
  · unfold validate_event_type
    cases hc : get_event_category s with
    | none => simp
    | some c =>
      rw [List.any_eq_true]
      constructor
      · rintro ⟨v, hv, hbeq⟩
        refine ⟨c, rfl, ?_⟩
        rw [← eq_of_beq hbeq]
        exact hv
      · rintro ⟨c2, hc2, hs⟩
        cases hc2
        exact ⟨s, hs, by simp⟩

/-- Witness for C7 (amended): an unknown prefix, and a dot-less string
that is not a category name. -/
theorem C7_witness :
    (get_event_category "foo.bar" = none ∧ validate_event_type "foo.bar" = false) ∧
    (get_event_category "zzz" = categoryFromString "zzz" ∧
      validate_event_type "zzz" = false) :=
  ⟨(C7_classification_total "foo.bar").2.2.1 (by decide),
   (C7_classification_total "zzz").2.1 (by decide)⟩

/-- C8: bootstrap is idempotent from the initial singleton state: the
first `ensure_schemas_registered` succeeds and registers the built-in
schemas; the second call changes nothing, so the registered event types
after two calls equal those after one (namely the built-in list, each with
exactly version "1.0"). -/
theorem C8_bootstrap_idempotent :
    (ensure_schemas_registered initialState).2 = none ∧
    ensure_schemas_registered (ensure_schemas_registered initialState).1
      = ((ensure_schemas_registered initialState).1, none) ∧
    Option.map list_event_types
        (ensure_schemas_registered (ensure_schemas_registered initialState).1).1.registry
      = Option.map list_event_types (ensure_schemas_registered initialState).1.registry ∧
    Option.map list_event_types (ensure_schemas_registered initialState).1.registry
      = some (builtinSchemas.map Prod.fst) ∧
    Option.map (fun r => list_versions r "order.created")
        (ensure_schemas_registered initialState).1.registry = some (.ok ["1.0"]) := by
  decide

/-- C9: `mark_deprecated` on an absent pair is exactly the identity on the
registry (no error, no new entry); on a present pair it flips that
record's deprecated flag, attaches the notes when they are non-empty, and
leaves the remaining fields, the other versions, the other types and the
latest index untouched. -/
theorem C9_mark_deprecated_frame (r : Registry) (t v : String)
    (notes : Option String) :
    ((alookup t r.schemas = none ∨
        (∃ vs, alookup t r.schemas = some vs ∧ alookup v vs = none)) →
      mark_deprecated r t v notes = r) ∧
    (∀ vs sv, alookup t r.schemas = some vs → alookup v vs = some sv →
      (mark_deprecated r t v notes).latest_versions = r.latest_versions ∧
      (∃ vs2, alookup t (mark_deprecated r t v notes).schemas = some vs2 ∧
        alookup v vs2 = some
          { sv with
            deprecated := true
            migration_notes :=
              match notes with
              | some str => if str = "" then sv.migration_notes else some str
              | none => sv.migration_notes } ∧
        ∀ w, w ≠ v → alookup w vs2 = alookup w vs) ∧
      ∀ t2, t2 ≠ t →
        alookup t2 (mark_deprecated r t v notes).schemas = alookup t2 r.schemas) := by
  constructor
  · intro h
    unfold mark_deprecated
    rcases h with h | ⟨vs, hvs, hv⟩
    · rw [h]
    · simp only [hvs, hv]
  · intro vs sv hvs hsv
    unfold mark_deprecated
    simp only [hvs, hsv]
    refine ⟨by trivial, ?_, ?_⟩
    · refine ⟨aupsert v
        { sv with
          deprecated := true
          migration_notes :=
            match notes with
            | some str => if str = "" then sv.migration_notes else some str
            | none => sv.migration_notes } vs, ?_, ?_, ?_⟩
      · exact alookup_aupsert_self ..
      · exact alookup_aupsert_self ..
      · intro w hw
        exact alookup_aupsert_ne hw _ vs
    · intro t2 ht2
      exact alookup_aupsert_ne ht2 _ r.schemas

/-- Witness for C9: deprecating an unregistered pair is the identity on a
concrete registry; deprecating a registered pair keeps the latest index. -/
theorem C9_witness :
    mark_deprecated sampleRegNumeric "payment.failed" "9.9" none = sampleRegNumeric ∧
    (mark_deprecated sampleRegNumeric "order.created" "1.2"
        (some "migrate to 1.10")).latest_versions
      = sampleRegNumeric.latest_versions :=
  ⟨(C9_mark_deprecated_frame sampleRegNumeric "payment.failed" "9.9" none).1
      (Or.inl (by decide)),
   ((C9_mark_deprecated_frame sampleRegNumeric "order.created" "1.2"
        (some "migrate to 1.10")).2 sampleVersionsNumeric
      ⟨"1.2", 1, 0, false, [], none⟩ (by decide) (by decide)).1⟩

/-- C10: `register_schema` does not validate the version string.  For a
valid event type with no registered versions, registering an unparseable
version succeeds (no latest exists, so no comparison runs), after which
`list_versions` and every `get_schema_evolution_path` call for that type
raise the version-parse error instead of returning a list. -/
theorem C10_register_skips_version_validation (r : Registry) (t : String)
    (s : Nat) (v : String) (n : Nat)
    (hval : validate_event_type t = true)
    (hsch : alookup t r.schemas = none)
    (hlat : alookup t r.latest_versions = none)
    (hpar : parse_version v = none) :
    ∃ r', register_schema r t s v n = .ok r' ∧
      list_versions r' t = .error .versionParse ∧
      ∀ f g, get_schema_evolution_path r' t f g = .error .versionParse := by
  have hreg : register_schema r t s v n = .ok
      ⟨r.schemas ++ [(t, [(v, ⟨v, s, n, false, [], none⟩)])],
        aupsert t v r.latest_versions⟩ := by
    unfold register_schema
    rw [hval]
    simp only [Bool.not_true, Bool.false_eq_true, if_false, hsch, Option.elim, hlat]
    unfold upsertSchema
    rw [hsch]
  have hlook : alookup t (r.schemas ++ [(t, [(v, ⟨v, s, n, false, [], none⟩)])])
      = some [(v, (⟨v, s, n, false, [], none⟩ : SchemaVersion))] := by
    rw [alookup_append_right_of_none hsch, alookup_cons, if_pos rfl]
  have hsortfail : sortVersionKeys
      ([(v, (⟨v, s, n, false, [], none⟩ : SchemaVersion))].map Prod.fst)
      = .error .versionParse := by
    unfold sortVersionKeys
    simp [hpar]
  refine ⟨_, hreg, ?_, ?_⟩
  · unfold list_versions
    dsimp only
    simp only [hlook, hsortfail]
  · intro f g
    unfold get_schema_evolution_path
    dsimp only
    simp only [hlook, hsortfail]
    rfl

/-- Witness for C10: registering version "abc" for `order.created` on the
fresh registry. -/
theorem C10_witness :
    ∃ r', register_schema emptyRegistry "order.created" 7 "abc" 0 = .ok r' ∧
      list_versions r' "order.created" = .error .versionParse ∧
      ∀ f g, get_schema_evolution_path r' "order.created" f g
        = .error .versionParse :=
  C10_register_skips_version_validation emptyRegistry "order.created" 7 "abc" 0
    (by decide) (by decide) (by decide) (by decide)

end EventPlatform
